import Mathlib

/-!
Verification of the shelf-life date arithmetic of the osg_helper bot
(files `osg_bot.py` and `osg_orders_bot.py`).

Calendar model: a Python `datetime` is embedded as `DateTime`, a pair of a
day number (proleptic Gregorian ordinal minus one, so that day `0` is
Monday, 0001-01-01, and `day % 7` equals Python's `date.weekday()`) and a
time-of-day in seconds (cosmetic: the arithmetic only ever shifts whole
days).  A Python `date` is embedded as the bare day number (`Int`).
Python float arithmetic on the small parameter values involved is embedded
as exact rational arithmetic on `ℚ`.
-/

/-- Embedding of a timezone-aware Python `datetime`: `day` is the proleptic
Gregorian ordinal minus one (day 0 = Monday 0001-01-01), `tod` the seconds
into the day. -/
structure DateTime where
  day : Int
  tod : Nat
deriving DecidableEq, Repr

/-- `dt + timedelta(days := k)`: shifts the day, keeps the time of day. -/
def addDays (dt : DateTime) (k : Int) : DateTime :=
  ⟨dt.day + k, dt.tod⟩

/-- Python `datetime.weekday()`: Monday = 0 … Sunday = 6.  With our epoch
convention this is the day number modulo 7. -/
def pyWeekday (dt : DateTime) : Int :=
  dt.day % 7

/-- Python `int(x)` on a float/rational: truncation toward zero. -/
def pyIntTrunc (q : ℚ) : Int :=
  if 0 ≤ q then ⌊q⌋ else ⌈q⌉

/-- From `osg_bot.py`, inside `min_prod_date`:
`allowed_age = max(0, math.ceil(shelf * (1 - target/100.0)) - safety)`. -/
def allowed_age (shelf : Int) (target : ℚ) (safety : Int) : Int :=
  max 0 (⌈(shelf : ℚ) * (1 - target / 100)⌉ - safety)

/-- From `osg_bot.py` lines 103–113 (`min_prod_date`): the returned
`date` (`(delivery - timedelta(days=allowed_age)).date()`) as a day
number. -/
def min_prod_date (delivery : DateTime) (shelf : Int) (target : ℚ)
    (safety : Int) : Int :=
  delivery.day - allowed_age shelf target safety

/-- From `osg_orders_bot.py`, inside `min_production_date_for_osg`:
`max_age_days = max(0, int((100 - target)/100 * shelf_life) - buffer)`
(truncating conversion `int(...)` on the float). -/
def max_age_days (shelf target buffer : Int) : Int :=
  max 0 (pyIntTrunc ((100 - (target : ℚ)) / 100 * (shelf : ℚ)) - buffer)

/-- From `osg_orders_bot.py` lines 104–114 (`min_production_date_for_osg`):
`delivery_dt - timedelta(days=max_age_days)`, a `datetime`. -/
def min_production_date_for_osg (delivery : DateTime)
    (shelf target buffer : Int) : DateTime :=
  ⟨delivery.day - max_age_days shelf target buffer, delivery.tod⟩

/-- From `osg_bot.py` lines 85–101 (`resolve_delivery_date_from_pick`):
weekday ≥ 3 (Thu–Sun) defers to the next Monday (`7 - wd`, but `1` for
Sunday), otherwise the date is kept; the result carries the fixed display
time 12:00. -/
def resolve_delivery_date_from_pick (p : DateTime) : DateTime :=
  let wd := pyWeekday p
  if 3 ≤ wd then
    let delta := if wd ≠ 6 then 7 - wd else 1
    ⟨p.day + delta, 12 * 3600⟩
  else
    ⟨p.day, 12 * 3600⟩

/-- C1: with shelf life 360, target 82 % and buffer 2, the ceiling variant
`min_prod_date` returns the calendar date exactly 63 days before the
delivery date, for every delivery datetime
(`ceil(360 * 0.18) = 65`, minus the buffer 2). -/
theorem claim_C1 (delivery : DateTime) :
    min_prod_date delivery 360 82 2 = delivery.day - 63 := by
  have h : allowed_age 360 82 2 = 63 := by
    have hc : ⌈(360 : ℚ) * (1 - 82 / 100)⌉ = 65 := by
      have : (360 : ℚ) * (1 - 82 / 100) = 324 / 5 := by norm_num
      rw [this, Int.ceil_eq_iff]
      norm_num
    simp [allowed_age, hc]
  simp [min_prod_date, h]

/-- C3: with shelf life 360, target 80 % and buffer 3, the truncation
variant `min_production_date_for_osg` returns the date exactly 69 days
before the delivery date, for every delivery datetime
(`int(360 * 0.20) = 72`, minus the buffer 3). -/
theorem claim_C3 (delivery : DateTime) :
    (min_production_date_for_osg delivery 360 80 3).day = delivery.day - 69 := by
  have h : max_age_days 360 80 3 = 69 := by
    have ht : pyIntTrunc ((100 - (80 : ℚ)) / 100 * 360) = 72 := by
      have : (100 - (80 : ℚ)) / 100 * 360 = 72 := by norm_num
      rw [pyIntTrunc, this]
      norm_num
    simp [max_age_days, ht]
  simp [min_production_date_for_osg, h]

/-- C4: for every delivery datetime and all integer parameters, the
computed allowed age is clamped to zero in both variants, hence neither
variant returns a date later than the delivery date; and at
shelf = 10, target = 99, buffer = 30 both results equal the delivery date
itself. -/
theorem claim_C4 (delivery : DateTime) (shelf target buffer : Int) :
    0 ≤ allowed_age shelf (target : ℚ) buffer ∧
    min_prod_date delivery shelf (target : ℚ) buffer ≤ delivery.day ∧
    0 ≤ max_age_days shelf target buffer ∧
    (min_production_date_for_osg delivery shelf target buffer).day ≤ delivery.day ∧
    min_prod_date delivery 10 99 30 = delivery.day ∧
    (min_production_date_for_osg delivery 10 99 30).day = delivery.day := by
  refine ⟨le_max_left _ _, ?_, le_max_left _ _, ?_, ?_, ?_⟩
  · have := le_max_left (0 : Int) (⌈(shelf : ℚ) * (1 - (target : ℚ) / 100)⌉ - buffer)
    simp only [min_prod_date, allowed_age]
    omega
  · have := le_max_left (0 : Int)
      (pyIntTrunc ((100 - (target : ℚ)) / 100 * (shelf : ℚ)) - buffer)
    simp only [min_production_date_for_osg, max_age_days]
    omega
  · have hc : ⌈(10 : ℚ) * (1 - 99 / 100)⌉ = 1 := by
      have : (10 : ℚ) * (1 - 99 / 100) = 1 / 10 := by norm_num
      rw [this, Int.ceil_eq_iff]
      norm_num
    simp [min_prod_date, allowed_age, hc]
  · have ht : pyIntTrunc ((100 - (99 : ℚ)) / 100 * 10) = 0 := by
      have : (100 - (99 : ℚ)) / 100 * 10 = 1 / 10 := by norm_num
      rw [pyIntTrunc, this]
      norm_num
    simp [min_production_date_for_osg, max_age_days, ht]

/-- C5: for a fixed delivery date, nonnegative shelf life and fixed
buffer, the result of `min_prod_date` is monotonically non-decreasing in
the target percentage on `[0, 100)`. -/
theorem claim_C5 (delivery : DateTime) (shelf : Int) (safety : Int)
    (t1 t2 : ℚ) (hs : 0 ≤ shelf) (h0 : 0 ≤ t1) (h12 : t1 ≤ t2)
    (h100 : t2 < 100) :
    min_prod_date delivery shelf t1 safety ≤
      min_prod_date delivery shelf t2 safety := by
  have hsq : (0 : ℚ) ≤ (shelf : ℚ) := by exact_mod_cast hs
  have hmul : (shelf : ℚ) * (1 - t2 / 100) ≤ (shelf : ℚ) * (1 - t1 / 100) := by
    have hdiv : t1 / 100 ≤ t2 / 100 := by
      apply div_le_div_of_nonneg_right h12 <;> norm_num
    have : (1 : ℚ) - t2 / 100 ≤ 1 - t1 / 100 := by linarith
    exact mul_le_mul_of_nonneg_left this hsq
  have hceil : ⌈(shelf : ℚ) * (1 - t2 / 100)⌉ ≤ ⌈(shelf : ℚ) * (1 - t1 / 100)⌉ :=
    Int.ceil_mono hmul
  simp only [min_prod_date, allowed_age]
  omega

/-- Witness for C5 at delivery = epoch, shelf = 360, buffer = 2,
targets 80 ≤ 82. -/
theorem claim_C5_witness :
    min_prod_date ⟨0, 0⟩ 360 80 2 ≤ min_prod_date ⟨0, 0⟩ 360 82 2 :=
  claim_C5 ⟨0, 0⟩ 360 2 80 82 (by norm_num) (by norm_num) (by norm_num)
    (by norm_num)

/-- C6: for a fixed delivery date, shelf life and target, the result of
`min_prod_date` is monotonically non-decreasing in the safety buffer. -/
theorem claim_C6 (delivery : DateTime) (shelf : Int) (target : ℚ)
    (b1 b2 : Int) (hb : b1 ≤ b2) :
    min_prod_date delivery shelf target b1 ≤
      min_prod_date delivery shelf target b2 := by
  simp only [min_prod_date, allowed_age]
  omega

/-- Witness for C6 at delivery = epoch, shelf = 360, target = 82,
buffers 2 ≤ 5. -/
theorem claim_C6_witness :
    min_prod_date ⟨0, 0⟩ 360 82 2 ≤ min_prod_date ⟨0, 0⟩ 360 82 5 :=
  claim_C6 ⟨0, 0⟩ 360 82 2 5 (by norm_num)

/-- C2: `resolve_delivery_date_from_pick` keeps the pickup date on
Mon–Wed; on Thu–Sun it returns a Monday strictly later than the pickup
date and at most 7 days after it; a Sunday pickup maps to the next day;
and any two deferred pickups of the same Monday-started week land on the
same Monday. -/
theorem claim_C2 (p q : DateTime) :
    (pyWeekday p < 3 → (resolve_delivery_date_from_pick p).day = p.day) ∧
    (3 ≤ pyWeekday p →
      pyWeekday (resolve_delivery_date_from_pick p) = 0 ∧
      p.day < (resolve_delivery_date_from_pick p).day ∧
      (resolve_delivery_date_from_pick p).day ≤ p.day + 7) ∧
    (pyWeekday p = 6 → (resolve_delivery_date_from_pick p).day = p.day + 1) ∧
    (3 ≤ pyWeekday p → 3 ≤ pyWeekday q → p.day / 7 = q.day / 7 →
      (resolve_delivery_date_from_pick p).day =
        (resolve_delivery_date_from_pick q).day) := by
  simp only [resolve_delivery_date_from_pick, pyWeekday]
  split_ifs <;> simp_all <;> omega

/-- Witness for C2: a Thursday pickup (day 3) and the following Sunday
(day 6) resolve to the same Monday. -/
theorem claim_C2_witness :
    (resolve_delivery_date_from_pick ⟨3, 0⟩).day =
      (resolve_delivery_date_from_pick ⟨6, 0⟩).day := by
  have h := claim_C2 ⟨3, 0⟩ ⟨6, 0⟩
  exact h.2.2.2 (by decide) (by decide) (by decide)

/-!
String machinery shared by the two bots: Python `str.strip`, `str.lower`,
digit handling, `strftime('%d.%m.%Y')` and the fixed-format `strptime`
patterns used by `parse_date` and `parse_human_date`.
-/

/-- The whitespace characters stripped by Python `str.strip()` (the ASCII
ones; the data handled by the bot contains no exotic unicode spaces). -/
def isPySpace (c : Char) : Bool :=
  c = ' ' || c = '\t' || c = '\n' || c = '\r' || c = '\x0b' || c = '\x0c'

/-- Python `str.strip()`: drop leading and trailing whitespace. -/
def pyStripList (cs : List Char) : List Char :=
  ((cs.dropWhile isPySpace).reverse.dropWhile isPySpace).reverse

/-- Python `str.lower()` on the alphabets the bot uses: ASCII `A`–`Z` and
Cyrillic `А`–`Я`, `Ё`. -/
def pyCharLower (c : Char) : Char :=
  if 'A' ≤ c ∧ c ≤ 'Z' then Char.ofNat (c.toNat + 32)
  else if 'А' ≤ c ∧ c ≤ 'Я' then Char.ofNat (c.toNat + 32)
  else if c = 'Ё' then 'ё'
  else c

def pyLowerList (cs : List Char) : List Char :=
  cs.map pyCharLower

def pyStripStr (s : String) : String :=
  String.mk (pyStripList s.data)

def pyLowerStr (s : String) : String :=
  String.mk (pyLowerList s.data)

/-- Numeric value of a decimal digit character. -/
def charToDigit (c : Char) : Nat :=
  c.toNat - 48

/-- Value of a string of decimal digits. -/
def digitsToNat (cs : List Char) : Nat :=
  cs.foldl (fun a c => a * 10 + charToDigit c) 0

/-- `strftime` zero-padded two-digit field (`%d`, `%m`; the bot only ever
formats values below 100). -/
def pad2 (n : Nat) : List Char :=
  [Nat.digitChar (n / 10), Nat.digitChar (n % 10)]

/-- `strftime` four-digit year field `%Y` (zero-padded, as documented for
`datetime.strftime`; the bot only ever formats values below 10000). -/
def pad4 (n : Nat) : List Char :=
  [Nat.digitChar (n / 1000), Nat.digitChar (n / 100 % 10),
   Nat.digitChar (n / 10 % 10), Nat.digitChar (n % 10)]

/-- Split a character list at every occurrence of `sep` (the separator
structure that `strptime` imposes on the fixed formats used here). -/
def splitOnCharAux (sep : Char) : List Char → List Char → List (List Char)
  | [], acc => [acc.reverse]
  | c :: cs, acc =>
    if c = sep then acc.reverse :: splitOnCharAux sep cs []
    else splitOnCharAux sep cs (c :: acc)

def splitOnChar (sep : Char) (cs : List Char) : List (List Char) :=
  splitOnCharAux sep cs []

/-- One numeric `strptime` field: all digits, length between `minLen` and
`maxLen`, value between `lo` and `hi` (this captures the regexes Python
compiles for `%d`, `%m`, `%Y`, `%y`). -/
def parsePart (cs : List Char) (minLen maxLen lo hi : Nat) : Option Nat :=
  if cs ≠ [] ∧ cs.all Char.isDigit ∧ minLen ≤ cs.length ∧
      cs.length ≤ maxLen ∧ lo ≤ digitsToNat cs ∧ digitsToNat cs ≤ hi
  then some (digitsToNat cs) else none

/-- A Python `date`/naive `datetime` as its calendar components. -/
structure PyDate where
  y : Nat
  m : Nat
  d : Nat
deriving DecidableEq, Repr

/-- Gregorian leap-year rule, as in Python's `datetime`. -/
def isLeapYear (y : Nat) : Bool :=
  (y % 4 == 0 && y % 100 != 0) || y % 400 == 0

def daysInMonth (y m : Nat) : Nat :=
  if m = 2 then (if isLeapYear y then 29 else 28)
  else if m = 4 ∨ m = 6 ∨ m = 9 ∨ m = 11 then 30
  else 31

/-- The dates accepted by the `datetime` constructor (`MINYEAR = 1`,
`MAXYEAR = 9999`). -/
def isValidDate (y m d : Nat) : Prop :=
  1 ≤ y ∧ y ≤ 9999 ∧ 1 ≤ m ∧ m ≤ 12 ∧ 1 ≤ d ∧ d ≤ daysInMonth y m

instance (y m d : Nat) : Decidable (isValidDate y m d) := by
  unfold isValidDate; infer_instance

/-- `strptime(s, fmt)` for `fmt` of the shape `%d SEP %m SEP %Y`
(the formats `"%d.%m.%Y"`, `"%d-%m-%Y"`, `"%d/%m/%Y"`). -/
def fmt_d_m_Y (sep : Char) (cs : List Char) : Option PyDate :=
  match splitOnChar sep cs with
  | [p1, p2, p3] =>
    match parsePart p1 1 2 1 31, parsePart p2 1 2 1 12,
        parsePart p3 4 4 0 9999 with
    | some d, some m, some y =>
      if isValidDate y m d then some ⟨y, m, d⟩ else none
    | _, _, _ => none
  | _ => none

/-- `strptime(s, "%Y-%m-%d")`. -/
def fmt_Y_m_d (cs : List Char) : Option PyDate :=
  match splitOnChar '-' cs with
  | [p1, p2, p3] =>
    match parsePart p1 4 4 0 9999, parsePart p2 1 2 1 12,
        parsePart p3 1 2 1 31 with
    | some y, some m, some d =>
      if isValidDate y m d then some ⟨y, m, d⟩ else none
    | _, _, _ => none
  | _ => none

/-- `strptime(s, "%d.%m.%y")`: two-digit year, mapped to 2000–2068 /
1969–1999 as Python does. -/
def fmt_d_m_y2 (cs : List Char) : Option PyDate :=
  match splitOnChar '.' cs with
  | [p1, p2, p3] =>
    match parsePart p1 1 2 1 31, parsePart p2 1 2 1 12,
        parsePart p3 2 2 0 99 with
    | some d, some m, some yy =>
      let y := if yy ≤ 68 then 2000 + yy else 1900 + yy
      if isValidDate y m d then some ⟨y, m, d⟩ else none
    | _, _, _ => none
  | _ => none

/-- From `osg_orders_bot.py` lines 78–101 (`parse_date`): strip the input,
reject the empty string, then try the five fixed formats in order,
returning the first that parses. -/
def parse_date (s : String) : Option PyDate :=
  let cs := pyStripList s.data
  if cs = [] then none
  else
    match fmt_d_m_Y '.' cs with
    | some r => some r
    | none =>
      match fmt_Y_m_d cs with
      | some r => some r
      | none =>
        match fmt_d_m_Y '-' cs with
        | some r => some r
        | none =>
          match fmt_d_m_Y '/' cs with
          | some r => some r
          | none => fmt_d_m_y2 cs

/-- `min_prod.strftime('%d.%m.%Y')` from `button_callback`
(`osg_orders_bot.py` lines 328–338): the bot's output date format. -/
def strftime_ddmmyyyy (dt : PyDate) : String :=
  String.mk (pad2 dt.d ++ '.' :: pad2 dt.m ++ '.' :: pad4 dt.y)

/-!
Round-trip lemmas: `strftime('%d.%m.%Y')` output re-parses with the first
format of `parse_date`.
-/

theorem digitChar_spec : ∀ k, k < 10 →
    (Nat.digitChar k).isDigit = true ∧ ¬ Nat.digitChar k = '.' ∧
    isPySpace (Nat.digitChar k) = false ∧
    charToDigit (Nat.digitChar k) = k := by decide

theorem pad2_spec (n : Nat) (h : n < 100) :
    ((pad2 n).all Char.isDigit = true) ∧ digitsToNat (pad2 n) = n ∧
    ∀ c ∈ pad2 n, ¬ c = '.' ∧ isPySpace c = false := by
  have h1 := digitChar_spec (n / 10) (by omega)
  have h2 := digitChar_spec (n % 10) (by omega)
  refine ⟨?_, ?_, ?_⟩
  · simp [pad2, h1.1, h2.1]
  · simp only [pad2, digitsToNat, List.foldl, h1.2.2.2, h2.2.2.2]
    omega
  · intro c hc
    simp only [pad2, List.mem_cons, List.not_mem_nil, or_false] at hc
    rcases hc with rfl | rfl
    · exact ⟨h1.2.1, h1.2.2.1⟩
    · exact ⟨h2.2.1, h2.2.2.1⟩

theorem pad4_spec (n : Nat) (h : n < 10000) :
    ((pad4 n).all Char.isDigit = true) ∧ digitsToNat (pad4 n) = n ∧
    ∀ c ∈ pad4 n, ¬ c = '.' ∧ isPySpace c = false := by
  have h1 := digitChar_spec (n / 1000) (by omega)
  have h2 := digitChar_spec (n / 100 % 10) (by omega)
  have h3 := digitChar_spec (n / 10 % 10) (by omega)
  have h4 := digitChar_spec (n % 10) (by omega)
  refine ⟨?_, ?_, ?_⟩
  · simp [pad4, h1.1, h2.1, h3.1, h4.1]
  · simp only [pad4, digitsToNat, List.foldl, h1.2.2.2, h2.2.2.2,
      h3.2.2.2, h4.2.2.2]
    omega
  · intro c hc
    simp only [pad4, List.mem_cons, List.not_mem_nil, or_false] at hc
    rcases hc with rfl | rfl | rfl | rfl
    · exact ⟨h1.2.1, h1.2.2.1⟩
    · exact ⟨h2.2.1, h2.2.2.1⟩
    · exact ⟨h3.2.1, h3.2.2.1⟩
    · exact ⟨h4.2.1, h4.2.2.1⟩

theorem dropWhile_eq_self_of (p : Char → Bool) (cs : List Char)
    (h : ∀ c ∈ cs, p c = false) : cs.dropWhile p = cs := by
  cases cs with
  | nil => rfl
  | cons a t => simp [List.dropWhile_cons, h a (by simp)]

theorem pyStripList_eq_self (cs : List Char)
    (h : ∀ c ∈ cs, isPySpace c = false) : pyStripList cs = cs := by
  unfold pyStripList
  rw [dropWhile_eq_self_of _ _ h]
  rw [dropWhile_eq_self_of _ _ (fun c hc => h c (List.mem_reverse.mp hc))]
  exact List.reverse_reverse cs

theorem splitOnCharAux_no_sep (sep : Char) (xs : List Char) :
    ∀ acc, (∀ c ∈ xs, ¬ c = sep) →
      splitOnCharAux sep xs acc = [acc.reverse ++ xs] := by
  induction xs with
  | nil => intro acc _; simp [splitOnCharAux]
  | cons a t ih =>
    intro acc h
    simp only [splitOnCharAux]
    rw [if_neg (h a (by simp))]
    rw [ih _ (fun c hc => h c (by simp [hc]))]
    simp

theorem splitOnCharAux_sep_split (sep : Char) (xs : List Char) :
    ∀ acc rest, (∀ c ∈ xs, ¬ c = sep) →
      splitOnCharAux sep (xs ++ sep :: rest) acc =
        (acc.reverse ++ xs) :: splitOnCharAux sep rest [] := by
  induction xs with
  | nil =>
    intro acc rest _
    simp [splitOnCharAux]
  | cons a t ih =>
    intro acc rest h
    simp only [List.cons_append, List.append_eq, splitOnCharAux]
    rw [if_neg (h a (by simp))]
    rw [ih _ _ (fun c hc => h c (by simp [hc]))]
    simp

theorem splitOnChar_three (sep : Char) (a b c : List Char)
    (ha : ∀ x ∈ a, ¬ x = sep) (hb : ∀ x ∈ b, ¬ x = sep)
    (hc : ∀ x ∈ c, ¬ x = sep) :
    splitOnChar sep (a ++ sep :: (b ++ sep :: c)) = [a, b, c] := by
  unfold splitOnChar
  rw [splitOnCharAux_sep_split sep a _ _ ha]
  rw [splitOnCharAux_sep_split sep b _ _ hb]
  rw [splitOnCharAux_no_sep sep c _ hc]
  simp

theorem parsePart_pad2 (n lo hi : Nat) (h : n < 100) (hlo : lo ≤ n)
    (hhi : n ≤ hi) : parsePart (pad2 n) 1 2 lo hi = some n := by
  obtain ⟨hd, hv, _⟩ := pad2_spec n h
  unfold parsePart
  rw [if_pos ⟨by simp [pad2], hd, by simp [pad2], by simp [pad2],
    by rw [hv]; exact hlo, by rw [hv]; exact hhi⟩]
  rw [hv]

theorem parsePart_pad4 (n lo hi : Nat) (h : n < 10000) (hlo : lo ≤ n)
    (hhi : n ≤ hi) : parsePart (pad4 n) 4 4 lo hi = some n := by
  obtain ⟨hd, hv, _⟩ := pad4_spec n h
  unfold parsePart
  rw [if_pos ⟨by simp [pad4], hd, by simp [pad4], by simp [pad4],
    by rw [hv]; exact hlo, by rw [hv]; exact hhi⟩]
  rw [hv]

theorem daysInMonth_le_31 (y m : Nat) : daysInMonth y m ≤ 31 := by
  unfold daysInMonth
  split_ifs <;> omega

theorem fmt_on_formatted (y m d : Nat) (h : isValidDate y m d) :
    fmt_d_m_Y '.' (pad2 d ++ '.' :: (pad2 m ++ '.' :: pad4 y)) =
      some ⟨y, m, d⟩ := by
  obtain ⟨hy1, hy2, hm1, hm2, hd1, hd2⟩ := h
  have hd31 : d ≤ 31 := le_trans hd2 (daysInMonth_le_31 y m)
  have hdlt : d < 100 := by omega
  have hmlt : m < 100 := by omega
  have hylt : y < 10000 := by omega
  unfold fmt_d_m_Y
  rw [splitOnChar_three '.' (pad2 d) (pad2 m) (pad4 y)
    (fun x hx => ((pad2_spec d hdlt).2.2 x hx).1)
    (fun x hx => ((pad2_spec m hmlt).2.2 x hx).1)
    (fun x hx => ((pad4_spec y hylt).2.2 x hx).1)]
  simp only [parsePart_pad2 d 1 31 hdlt hd1 hd31,
    parsePart_pad2 m 1 12 hmlt hm1 hm2,
    parsePart_pad4 y 0 9999 hylt (Nat.zero_le y) hy2]
  rw [if_pos (show isValidDate y m d from ⟨hy1, hy2, hm1, hm2, hd1, hd2⟩)]

/-- C7: formatting any valid calendar date with the bot's output format
`%d.%m.%Y` and re-parsing it with `parse_date` yields the same calendar
date (the first parse format matches and returns it). -/
theorem claim_C7 (y m d : Nat) (h : isValidDate y m d) :
    parse_date (strftime_ddmmyyyy ⟨y, m, d⟩) = some ⟨y, m, d⟩ := by
  obtain ⟨hy1, hy2, hm1, hm2, hd1, hd2⟩ := h
  have hdlt : d < 100 :=
    lt_of_le_of_lt (le_trans hd2 (daysInMonth_le_31 y m)) (by norm_num)
  have hnospace : ∀ c ∈ pad2 d ++ '.' :: (pad2 m ++ '.' :: pad4 y),
      isPySpace c = false := by
    intro c hcmem
    rcases List.mem_append.mp hcmem with hx | hx
    · exact ((pad2_spec d hdlt).2.2 c hx).2
    · rcases List.mem_cons.mp hx with h1 | hx2
      · subst h1; decide
      · rcases List.mem_append.mp hx2 with hx3 | hx4
        · exact ((pad2_spec m (by omega)).2.2 c hx3).2
        · rcases List.mem_cons.mp hx4 with h2 | hx5
          · subst h2; decide
          · exact ((pad4_spec y (by omega)).2.2 c hx5).2
  have hdata : (strftime_ddmmyyyy ⟨y, m, d⟩).data =
      pad2 d ++ '.' :: (pad2 m ++ '.' :: pad4 y) := rfl
  simp only [parse_date, hdata]
  rw [pyStripList_eq_self _ hnospace]
  rw [if_neg (by simp [pad2])]
  rw [fmt_on_formatted y m d ⟨hy1, hy2, hm1, hm2, hd1, hd2⟩]

/-- Witness for C7 at the concrete date 01.12.2025. -/
theorem claim_C7_witness :
    parse_date (strftime_ddmmyyyy ⟨2025, 12, 1⟩) = some ⟨2025, 12, 1⟩ :=
  claim_C7 2025 12 1 (by decide)

/-!
Configuration loading of `osg_orders_bot.py` (lines 63–65) and the
contractor-sheet loader (lines 173–211).
-/

def emptyString : String := ""

/-- The placeholder stored when a delivery cell is blank. -/
def dashStr : String := "—"

/-- At least one decimal digit and nothing else (the digit body accepted
by Python `int(str)`). -/
def digitsOnly (cs : List Char) : Option Nat :=
  if cs ≠ [] ∧ cs.all Char.isDigit then some (digitsToNat cs) else none

/-- Python `int(s)` on a string: strip whitespace, optional sign, decimal
digits; raises (here: `none`) otherwise. -/
def pyIntOfString (s : String) : Option Int :=
  match pyStripList s.data with
  | '-' :: rest => (digitsOnly rest).map (fun n => -(n : Int))
  | '+' :: rest => (digitsOnly rest).map (fun n => (n : Int))
  | cs => (digitsOnly cs).map (fun n => (n : Int))

/-- From `osg_orders_bot.py` lines 63–65: the startup configuration is
read as `int(os.getenv("SHELF_LIFE_DAYS", "360"))` etc.  The arguments
are the three environment strings (or their defaults).  Startup aborts
(`none`) exactly when `int()` raises, i.e. a string is not an integer
literal; no range validation is performed on the parsed values. -/
def loadConfig (shelfS targetS bufferS : String) : Option (Int × Int × Int) :=
  match pyIntOfString shelfS, pyIntOfString targetS, pyIntOfString bufferS with
  | some a, some b, some c => some (a, b, c)
  | _, _, _ => none

def envShelfNeg : String := "-5"

def envTargetBig : String := "150"

def envBufferOk : String := "30"

/-- Counterexample to C8 as stated: a configuration with negative shelf
life (−5) and a target percent outside `[0, 100)` (150) is NOT rejected
at startup — `int()` accepts it and the bot serves with these values. -/
theorem claim_C8_counterexample :
    ((-5 : Int) < 0 ∧ ¬ ((150 : Int) < 100)) ∧
    ¬ loadConfig envShelfNeg envTargetBig envBufferOk = none := by decide

/-- C8 (amended): startup conversion fails fast only on strings that are
not integer literals; any integer values — including a negative shelf
life and an out-of-range target percent — are accepted unchanged, with no
clamping or validation. -/
theorem claim_C8 (s1 s2 s3 : String) (a b c : Int)
    (h1 : pyIntOfString s1 = some a) (h2 : pyIntOfString s2 = some b)
    (h3 : pyIntOfString s3 = some c) :
    loadConfig s1 s2 s3 = some (a, b, c) := by
  simp [loadConfig, h1, h2, h3]

/-- Witness for C8 (amended) on the invalid values −5 / 150 / 30. -/
theorem claim_C8_witness :
    loadConfig envShelfNeg envTargetBig envBufferOk = some (-5, 150, 30) :=
  claim_C8 envShelfNeg envTargetBig envBufferOk (-5) 150 30 (by decide)
    (by decide) (by decide)

def strContractorHdr : String := "contractor"

def strDeliveryHdr : String := "deliverydate"

/-- `headers = [h.strip().lower() for h in values[0]]` followed by
`headers.index("contractor")` / `headers.index("deliverydate")`
(first occurrence; `none` models the raised `KeyError`). -/
def headerIdx (header : List String) : Option (Nat × Nat) :=
  let hs := header.map (fun h => pyLowerStr (pyStripStr h))
  match hs.findIdx? (fun h => h == strContractorHdr),
      hs.findIdx? (fun h => h == strDeliveryHdr) with
  | some i, some j => some (i, j)
  | _, _ => none

/-- The body of the row loop of `load_contractors_from_sheet`: skip short
rows and rows with a blank contractor, otherwise overwrite the entry for
the stripped contractor with the stripped delivery (or the `—`
placeholder when blank). -/
def rowStep (ic jd : Nat) (acc : String → Option String)
    (row : List String) : String → Option String :=
  if row.length ≤ max ic jd then acc
  else
    let contractor := pyStripStr (row.getD ic emptyString)
    let delivery := pyStripStr (row.getD jd emptyString)
    if contractor = emptyString then acc
    else fun k =>
      if k = contractor then
        some (if delivery = emptyString then dashStr else delivery)
      else acc k

def processRows (ic jd : Nat) (rows : List (List String)) :
    String → Option String :=
  rows.foldl (rowStep ic jd) (fun _ => none)

/-- From `osg_orders_bot.py` lines 173–211 (`load_contractors_from_sheet`):
the returned dictionary, as the lookup function it computes.  An empty
sheet yields the empty mapping; a header without the two required columns
raises (`none`). -/
def load_contractors_from_sheet (values : List (List String)) :
    Option (String → Option String) :=
  match values with
  | [] => some (fun _ => none)
  | header :: rows =>
    match headerIdx header with
    | some (ic, jd) => some (processRows ic jd rows)
    | none => none

/-- C9: on a sheet whose header resolves the `contractor` and
`deliverydate` columns, (1) a row that is too short or whose contractor
cell strips to blank is skipped wherever it occurs, and (2) appending a
row with a non-blank contractor makes the mapping return that row's
stripped delivery string (the `—` placeholder when it is blank) for that
contractor — so the last of several rows with the same contractor wins —
while all other keys are untouched. -/
theorem claim_C9 (header : List String) (pre suf : List (List String))
    (row : List String) (ic jd : Nat)
    (hh : headerIdx header = some (ic, jd)) :
    ((row.length ≤ max ic jd ∨
        pyStripStr (row.getD ic emptyString) = emptyString) →
      load_contractors_from_sheet (header :: (pre ++ row :: suf)) =
        load_contractors_from_sheet (header :: (pre ++ suf))) ∧
    (max ic jd < row.length →
      ¬ pyStripStr (row.getD ic emptyString) = emptyString →
      ∃ f g,
        load_contractors_from_sheet (header :: (pre ++ [row])) = some f ∧
        load_contractors_from_sheet (header :: pre) = some g ∧
        f (pyStripStr (row.getD ic emptyString)) =
          some (if pyStripStr (row.getD jd emptyString) = emptyString
                then dashStr else pyStripStr (row.getD jd emptyString)) ∧
        ∀ k, ¬ k = pyStripStr (row.getD ic emptyString) → f k = g k) := by
  have hload : ∀ rs, load_contractors_from_sheet (header :: rs) =
      some (processRows ic jd rs) := by
    intro rs
    simp [load_contractors_from_sheet, hh]
  constructor
  · intro hskip
    have hstep : ∀ acc, rowStep ic jd acc row = acc := by
      intro acc
      simp only [rowStep]
      rcases hskip with h | h
      · rw [if_pos h]
      · by_cases h1 : row.length ≤ max ic jd
        · rw [if_pos h1]
        · rw [if_neg h1, if_pos h]
    rw [hload (pre ++ row :: suf), hload (pre ++ suf)]
    simp only [processRows, List.foldl_append, List.foldl_cons]
    rw [hstep]
  · intro hlen hc
    refine ⟨rowStep ic jd (processRows ic jd pre) row,
      processRows ic jd pre, ?_, hload pre, ?_, ?_⟩
    · rw [hload (pre ++ [row])]
      simp only [processRows, List.foldl_append, List.foldl_cons,
        List.foldl_nil]
    · simp only [rowStep]
      rw [if_neg (not_le.mpr hlen), if_neg hc]
      simp
    · intro k hk
      simp only [rowStep]
      rw [if_neg (not_le.mpr hlen), if_neg hc]
      exact if_neg hk

def hdrContractorCell : String := "Contractor"

def hdrDeliveryCell : String := "DeliveryDate"

def hdrRow : List String := [hdrContractorCell, hdrDeliveryCell]

def nameRomashka : String := "ООО Ромашка"

def rowRomashka : List String := [nameRomashka, emptyString]

/-- Witness for C9: a one-row sheet with a blank delivery cell maps the
contractor to the `—` placeholder. -/
theorem claim_C9_witness :
    ∃ f g,
      load_contractors_from_sheet (hdrRow :: ([] ++ [rowRomashka])) = some f ∧
      load_contractors_from_sheet (hdrRow :: []) = some g ∧
      f (pyStripStr (rowRomashka.getD 0 emptyString)) =
        some (if pyStripStr (rowRomashka.getD 1 emptyString) = emptyString
              then dashStr else pyStripStr (rowRomashka.getD 1 emptyString)) ∧
      ∀ k, ¬ k = pyStripStr (rowRomashka.getD 0 emptyString) → f k = g k :=
  (claim_C9 hdrRow [] [] rowRomashka 0 1 (by decide)).2 (by decide) (by decide)

/-!
The human-date parser of `osg_bot.py` (lines 42–80, `parse_human_date`)
and the weekday-abbreviation rule.
-/

def strSegodnya : List Char := "сегодня".data

def strToday : List Char := "today".data

def strZavtra : List Char := "завтра".data

def strTomorrow : List Char := "tomorrow".data

def strPoslezavtra : List Char := "послезавтра".data

def strCherez : List Char := "через".data

/-- The weekday dictionary `{"пн": 0, …, "вс": 6}`. -/
def weekdayAbbrevs : List (List Char × Int) :=
  [(r"пн".data, 0), (r"вт".data, 1), (r"ср".data, 2), (r"чт".data, 3),
   (r"пт".data, 4), (r"сб".data, 5), (r"вс".data, 6)]

/-- `re.match(r"через\s+(\d+)\s*(дн|дня|дней)?", s)`: the prefix `через`,
at least one space, at least one digit; the rest of the string is
unconstrained (`re.match` does not anchor at the end). -/
def matchCherez (cs : List Char) : Option Nat :=
  if cs.take strCherez.length = strCherez then
    match cs.drop strCherez.length with
    | [] => none
    | c :: rest =>
      if isPySpace c then
        let ds := ((c :: rest).dropWhile isPySpace).takeWhile Char.isDigit
        if ds = [] then none else some (digitsToNat ds)
      else none
  else none

/-- `re.match(r"в\s*(пн|вт|ср|чт|пт|сб|вс)$", s)`: a leading `в`, any
spaces, then exactly one of the seven abbreviations up to the end of the
string. -/
def matchWeekday (cs : List Char) : Option Int :=
  match cs with
  | c :: rest =>
    if c = 'в' then
      (weekdayAbbrevs.find? (fun p => p.1 == rest.dropWhile isPySpace)).map
        (fun p => p.2)
    else none
  | [] => none

def monthDaysCum : List Nat :=
  [0, 31, 59, 90, 120, 151, 181, 212, 243, 273, 304, 334]

def daysBeforeMonth (y m : Nat) : Nat :=
  let base := monthDaysCum.getD (m - 1) 0
  if 3 ≤ m ∧ isLeapYear y then base + 1 else base

/-- `date.toordinal()`: day count with 0001-01-01 as day 1. -/
def toOrdinal (y m d : Nat) : Nat :=
  365 * (y - 1) + (y - 1) / 4 - (y - 1) / 100 + (y - 1) / 400 +
    daysBeforeMonth y m + d

/-- `datetime.strptime` result at midnight, as a day-number `DateTime`. -/
def atMidnight (dte : PyDate) : DateTime :=
  ⟨(toOrdinal dte.y dte.m dte.d : Int) - 1, 0⟩

/-- From `osg_bot.py` lines 42–80 (`parse_human_date`): strip and
lowercase; the empty string fails; then the fixed words, the
`через N дней` rule, the `в <weekday>` rule (days until the next such
weekday, with 7 instead of 0 when today is that weekday), and finally the
three numeric formats `%Y-%m-%d`, `%d.%m.%Y`, `%d/%m/%Y`. -/
def parse_human_date (s : String) (now : DateTime) : Option DateTime :=
  let cs := pyLowerList (pyStripList s.data)
  if cs = [] then none
  else if cs = strSegodnya ∨ cs = strToday then some now
  else if cs = strZavtra ∨ cs = strTomorrow then some (addDays now 1)
  else if cs = strPoslezavtra then some (addDays now 2)
  else
    match matchCherez cs with
    | some n => some (addDays now (n : Int))
    | none =>
      match matchWeekday cs with
      | some target =>
        let d0 := (target - pyWeekday now) % 7
        let d1 := if d0 = 0 then 7 else d0
        some (addDays now d1)
      | none =>
        match fmt_Y_m_d cs with
        | some dte => some (atMidnight dte)
        | none =>
          match fmt_d_m_Y '.' cs with
          | some dte => some (atMidnight dte)
          | none =>
            match fmt_d_m_Y '/' cs with
            | some dte => some (atMidnight dte)
            | none => none

theorem parse_weekday_bounds (a : List Char) (t : Int) (now : DateTime)
    (hmain : parse_human_date (String.mk ('в' :: ' ' :: a)) now =
      some (addDays now (if (t - pyWeekday now) % 7 = 0 then 7
                         else (t - pyWeekday now) % 7))) :
    ∃ k : Int, parse_human_date (String.mk ('в' :: ' ' :: a)) now =
      some (addDays now k) ∧ 1 ≤ k ∧ k ≤ 7 ∧
      (pyWeekday now = t → k = 7) := by
  refine ⟨_, hmain, ?_, ?_, ?_⟩
  · simp only [pyWeekday]
    split_ifs <;> omega
  · simp only [pyWeekday]
    split_ifs <;> omega
  · intro hw
    simp only [pyWeekday] at hw
    simp only [pyWeekday]
    split_ifs <;> omega

/-- C10: for every current datetime and each weekday abbreviation `w`
with dictionary value `t`, `parse_human_date` on `в w` returns a datetime
that is strictly in the future, between 1 and 7 days ahead, and when
today already is that weekday it returns the date one week later, never
today. -/
theorem claim_C10 (now : DateTime) (a : List Char) (t : Int)
    (h : (a, t) ∈ weekdayAbbrevs) :
    ∃ k : Int, parse_human_date (String.mk ('в' :: ' ' :: a)) now =
      some (addDays now k) ∧ 1 ≤ k ∧ k ≤ 7 ∧
      (pyWeekday now = t → k = 7) := by
  simp only [weekdayAbbrevs, List.mem_cons, List.not_mem_nil, or_false,
    Prod.mk.injEq] at h
  rcases h with ⟨rfl, rfl⟩ | ⟨rfl, rfl⟩ | ⟨rfl, rfl⟩ | ⟨rfl, rfl⟩ |
    ⟨rfl, rfl⟩ | ⟨rfl, rfl⟩ | ⟨rfl, rfl⟩
  all_goals exact parse_weekday_bounds _ _ now rfl

/-- Witness for C10: `в пн` on a Monday epoch resolves 7 days ahead. -/
theorem claim_C10_witness :
    ∃ k : Int, parse_human_date (String.mk ('в' :: ' ' :: r"пн".data)) ⟨0, 0⟩ =
      some (addDays ⟨0, 0⟩ k) ∧ 1 ≤ k ∧ k ≤ 7 ∧
      (pyWeekday ⟨0, 0⟩ = 0 → k = 7) :=
  claim_C10 ⟨0, 0⟩ (r"пн".data) 0 (by decide)
